import Mathlib

/-!
Verification development for the layered configuration resolution core of
the `syngesture` daemon (`src/config.rs`).

The Rust code is shallowly embedded:

* `BTreeMap` values become key-sorted association lists (`minsert` /
  `mfind?`), so that two maps holding the same bindings are equal as lists,
  matching `BTreeMap` extensionality.
* Filesystem and process-environment effects (`Path::exists`,
  `std::fs::read`, `read_dir`, `std::env::var`, `std::env::home_dir`) become
  oracle fields of an `FS` / `Env` record supplied to the embedded
  functions.
* `eprintln!` diagnostics become an explicit log of strings threaded next to
  the configuration store.
* The `Gesture` type lives in `events.rs`, which is outside the sources at
  hand; the spec describes it as an opaque, totally ordered,
  equality-comparable key, so it is modelled as `Nat`.
* The serde/toml deserialization semantics of the derived schema
  (`ConfigFile`, `ConfigDeviceGestures`, `ConfigGestureAndAction`) are
  external library behavior; they are modelled from the spec over a small
  TOML value type, with the external `Gesture` field deserializer kept as an
  oracle.
-/

namespace Syngesture

/-- `pub(crate) type Device = String;` -/
abbrev Device := String

/-- Modelled from the spec: `Gesture` is defined in `events.rs` (not among
the sources); the spec treats it as an opaque, totally ordered,
equality-comparable key, so it is modelled as `Nat`. -/
abbrev Gesture := Nat

/-- `enum Action { None, Execute(String) }`. -/
inductive Action where
  | none : Action
  | execute (cmd : String) : Action
deriving DecidableEq, Repr

/-- Key-sorted association-list lookup, modelling `BTreeMap::get` /
`BTreeMap::entry`. -/
def mfind? {α : Type} {β : Type} [DecidableEq α] (k : α) : List (α × β) → Option β
  | [] => Option.none
  | (k', v) :: t => if k = k' then Option.some v else mfind? k t

/-- Key-sorted association-list insertion, modelling `BTreeMap::insert`
(last write for a key wins, keys kept strictly increasing). -/
def minsert {α : Type} {β : Type} [LinearOrder α] (k : α) (v : β) :
    List (α × β) → List (α × β)
  | [] => [(k, v)]
  | (k', v') :: t =>
    if k < k' then (k, v) :: (k', v') :: t
    else if k = k' then (k, v) :: t
    else (k', v') :: minsert k v t

/-- Strictly-increasing-keys invariant of the `BTreeMap` model. -/
def msorted {α : Type} {β : Type} [LinearOrder α] (m : List (α × β)) : Prop :=
  List.Pairwise (fun p q => p.1 < q.1) m

/-- `pub(crate) type GestureMap = BTreeMap<Gesture, Action>;` -/
abbrev GestureMap := List (Gesture × Action)

/-- `struct Configuration { devices: BTreeMap<Device, GestureMap> }`. -/
structure Configuration where
  devices : List (Device × GestureMap)
deriving DecidableEq, Repr

/-- `Configuration::new()`. -/
def Configuration.new : Configuration := ⟨[]⟩

/-- Well-formedness of the `BTreeMap` model: the device map and every
gesture map have strictly increasing keys. -/
def Configuration.WF (c : Configuration) : Prop :=
  msorted c.devices ∧ ∀ p ∈ c.devices, msorted p.2

/-- One parsed gesture record (`struct ConfigGestureAndAction`). -/
structure ConfigGestureAndAction where
  gesture : Gesture
  action : Action
deriving DecidableEq, Repr

/-- One parsed device block (`struct ConfigDeviceGestures`). -/
structure ConfigDeviceGestures where
  device : Device
  gestures : List ConfigGestureAndAction
deriving DecidableEq, Repr

/-- A parsed configuration document (`struct ConfigFile`). -/
structure ConfigFile where
  devices : List ConfigDeviceGestures
deriving DecidableEq, Repr

/-! ### TOML values and the derived serde schema

`load_config_file` reads bytes and runs `toml::from_slice` against the
derived schema. The byte-level TOML syntax parser is the external `toml`
crate and is kept as an oracle (`FS.readToml` below); the schema layer
(field names, the `devices`/`device` alias, the flattened gesture record
with its optional action) is modelled here over structured TOML values. -/

/-- A structured TOML value, the output of the external syntax parser. -/
inductive TomlVal where
  | vstr (s : String) : TomlVal
  | vint (n : Int) : TomlVal
  | vtable (fields : List (String × TomlVal)) : TomlVal
  | varr (items : List TomlVal) : TomlVal

/-- Lookup of a field in a TOML table. -/
def tlookup (k : String) : List (String × TomlVal) → Option TomlVal
  | [] => Option.none
  | (k', v) :: t => if k = k' then Option.some v else tlookup k t

/-- Modelled from the spec: the deserializer of the external `Gesture` type
(defined in `events.rs`, not among the sources). Given the fields of a
gesture record it either fails or returns the gesture together with the
fields it did not consume. -/
def GestureDe := List (String × TomlVal) → Except String (Gesture × List (String × TomlVal))

/-- Modelled from the spec: the flattened optional `Action` field of a
gesture record. An action field entirely absent resolves to `Action.none`;
an `execute = "cmd"` field resolves to `Action.execute cmd`; anything left
over beyond that (extra or unknown fields, wrong types) is rejected. -/
def deserializeActionFlat : List (String × TomlVal) → Except String Action
  | [] => Except.ok Action.none
  | [("execute", TomlVal.vstr s)] => Except.ok (Action.execute s)
  | _ => Except.error "unknown or invalid fields in gesture record"

/-- Modelled from the spec: one flattened gesture record
(`struct ConfigGestureAndAction`, both fields `#[serde(flatten)]`): the
gesture deserializer consumes its own fields, the rest resolve the optional
action. -/
def parseGestureRecord (gp : GestureDe) (fields : List (String × TomlVal)) :
    Except String ConfigGestureAndAction :=
  match gp fields with
  | Except.error e => Except.error e
  | Except.ok (g, rest) =>
    match deserializeActionFlat rest with
    | Except.error e => Except.error e
    | Except.ok a => Except.ok ⟨g, a⟩

/-- Modelled from the spec: the collection of gesture records of a device
block. -/
def parseGestureRecords (gp : GestureDe) : List TomlVal →
    Except String (List ConfigGestureAndAction)
  | [] => Except.ok []
  | TomlVal.vtable fields :: t =>
    match parseGestureRecord gp fields with
    | Except.error e => Except.error e
    | Except.ok r =>
      match parseGestureRecords gp t with
      | Except.error e => Except.error e
      | Except.ok rs => Except.ok (r :: rs)
  | _ :: _ => Except.error "expected a gesture record table"

/-- Modelled from the spec: one device block
(`struct ConfigDeviceGestures`): a `device` string and a `gestures`
collection of records. -/
def parseDeviceBlock (gp : GestureDe) : TomlVal → Except String ConfigDeviceGestures
  | TomlVal.vtable fields =>
    match tlookup "device" fields with
    | Option.some (TomlVal.vstr d) =>
      (match tlookup "gestures" fields with
       | Option.some (TomlVal.varr items) =>
         (match parseGestureRecords gp items with
          | Except.error e => Except.error e
          | Except.ok rs => Except.ok ⟨d, rs⟩)
       | Option.some _ => Except.error "invalid type for field gestures"
       | Option.none => Except.error "missing field gestures")
    | Option.some _ => Except.error "invalid type for field device"
    | Option.none => Except.error "missing field device"
  | _ => Except.error "expected a device block table"

/-- Modelled from the spec: the collection of device blocks. -/
def parseDeviceBlocks (gp : GestureDe) : List TomlVal →
    Except String (List ConfigDeviceGestures)
  | [] => Except.ok []
  | v :: t =>
    match parseDeviceBlock gp v with
    | Except.error e => Except.error e
    | Except.ok b =>
      match parseDeviceBlocks gp t with
      | Except.error e => Except.error e
      | Except.ok bs => Except.ok (b :: bs)

/-- Modelled from the spec: the top-level document schema
(`struct ConfigFile`): key `devices`, with `#[serde(alias = "device")]`
also accepting the key `device`, holding the collection of device blocks. -/
def parseConfigFile (gp : GestureDe) : TomlVal → Except String ConfigFile
  | TomlVal.vtable fields =>
    (match tlookup "devices" fields, tlookup "device" fields with
     | Option.some _, Option.some _ => Except.error "duplicate field devices"
     | Option.some (TomlVal.varr items), Option.none =>
       (match parseDeviceBlocks gp items with
        | Except.error e => Except.error e
        | Except.ok bs => Except.ok ⟨bs⟩)
     | Option.none, Option.some (TomlVal.varr items) =>
       (match parseDeviceBlocks gp items with
        | Except.error e => Except.error e
        | Except.ok bs => Except.ok ⟨bs⟩)
     | Option.some _, Option.none => Except.error "invalid type for field devices"
     | Option.none, Option.some _ => Except.error "invalid type for field devices"
     | Option.none, Option.none => Except.error "missing field devices")
  | _ => Except.error "expected a table"

/-! ### The filesystem and environment oracles -/

/-- The result of inspecting one directory entry: its path, its
`Path::extension()`, and the result of `DirEntry::file_type()` (`true`
meaning a directory). -/
structure DirEntry where
  path : String
  ext : Option String
  fileType : Except String Bool
deriving Repr

/-- The ambient filesystem and external deserializers, as oracles:
`Path::exists`, `Path::is_dir`, `std::fs::read` composed with the `toml`
syntax parser, `Path::read_dir`, and the external `Gesture` deserializer. -/
structure FS where
  pathExists : String → Bool
  isDir : String → Bool
  readToml : String → Except String TomlVal
  readDir : String → Except String (List (Except String DirEntry))
  gestureDe : GestureDe

/-- `std::env::var("XDG_CONFIG_HOME")`: a present unicode value, absence
(`VarError::NotPresent`), or a non-unicode value (`VarError::NotUnicode`). -/
inductive XdgVar where
  | ok (value : String) : XdgVar
  | notPresent : XdgVar
  | notUnicode : XdgVar
deriving DecidableEq, Repr

/-- The process environment: the `XDG_CONFIG_HOME` variable and
`std::env::home_dir()`. -/
structure Env where
  xdgConfigHome : XdgVar
  homeDir : Option String
deriving Repr

/-- `PathBuf::join` on displayed paths: appends with a separator unless one
is already there. -/
def pjoin (a b : String) : String :=
  if a = "" then b
  else if a.data.getLast? = Option.some '/' then a ++ b
  else a ++ "/" ++ b

/-! ### The embedded functions of `config.rs`

Each function carries the configuration store together with the list of
diagnostics printed so far (`eprintln!` becomes appending to the log). -/

/-- The store together with its emitted diagnostics. -/
abbrev LoadState := Configuration × List String

/-- The body of the per-device loop of `load_config_file`:
`config.devices.entry(device).or_default()` followed by inserting every
gesture record of the block. -/
def apply_device_config (config : Configuration) (dc : ConfigDeviceGestures) :
    Configuration :=
  let device_gestures := (mfind? dc.device config.devices).getD []
  let device_gestures :=
    dc.gestures.foldl (fun m ga => minsert ga.gesture ga.action m) device_gestures
  ⟨minsert dc.device device_gestures config.devices⟩

/-- The whole per-file application loop of `load_config_file`. -/
def apply_config_file (config : Configuration) (file : ConfigFile) : Configuration :=
  file.devices.foldl apply_device_config config

/-- `fn load_config_file(config, path) -> Result<()>`: read and parse the
file, then fold its device blocks into the store. The mutated store is
returned; an error leaves the caller's store untouched. -/
def load_config_file (fs : FS) (config : Configuration) (path : String) :
    Except String Configuration :=
  match fs.readToml path with
  | Except.error e => Except.error e
  | Except.ok doc =>
    match parseConfigFile fs.gestureDe doc with
    | Except.error e => Except.error e
    | Except.ok file => Except.ok (apply_config_file config file)

/-- `fn try_load_config_file`: on failure keep the store and print the
path and the cause. -/
def try_load_config_file (fs : FS) (st : LoadState) (path : String) : LoadState :=
  match load_config_file fs st.1 path with
  | Except.ok c => (c, st.2)
  | Except.error e =>
    (st.1, st.2 ++ ["Error loading configuration file at " ++ path ++ ": " ++ e])

/-- The per-entry body of the `read_dir` loop of `load_config_dir`: a failed
entry of the iterator is reported and skipped; `process_item` skips
directories and non-`.toml` extensions, loads the rest, and a failure to
inspect the entry (`file_type()?`) is reported with the entry's path. -/
def scan_step (fs : FS) (dir : String) (st : LoadState)
    (item : Except String DirEntry) : LoadState :=
  match item with
  | Except.error e =>
    (st.1,
     st.2 ++ ["Error reading file from configuration directory " ++ dir ++ ": " ++ e])
  | Except.ok entry =>
    match entry.fileType with
    | Except.error e => (st.1, st.2 ++ ["Error loading " ++ entry.path ++ ": " ++ e])
    | Except.ok isDirectory =>
      if isDirectory then st
      else if entry.ext ≠ Option.some "toml" then st
      else try_load_config_file fs st entry.path

/-- `fn load_config_dir(config, dir) -> Result<()>`: missing or non-directory
paths are an empty source; `read_dir()?` may fail; otherwise every entry is
processed in enumeration order. -/
def load_config_dir (fs : FS) (st : LoadState) (dir : String) :
    Except String LoadState :=
  if !fs.pathExists dir || !fs.isDir dir then Except.ok st
  else
    match fs.readDir dir with
    | Except.error e => Except.error e
    | Except.ok items => Except.ok (items.foldl (scan_step fs dir) st)

/-- `fn try_load_config_dir`: on failure keep the store and print the
directory and the cause. -/
def try_load_config_dir (fs : FS) (st : LoadState) (dir : String) : LoadState :=
  match load_config_dir fs st dir with
  | Except.ok st' => st'
  | Except.error e =>
    (st.1, st.2 ++ ["Error reading from configuration directory " ++ dir ++ ": " ++ e])

/-- The `if path.exists() { try_load_config_file(...) }` pattern of `load`
and `load_user_config`. -/
def maybe_load_file (fs : FS) (st : LoadState) (path : String) : LoadState :=
  if fs.pathExists path then try_load_config_file fs st path else st

/-- `fn get_user_config_dir() -> Result<PathBuf>`: an absent or empty home
directory is an error, else `<home>/.config/`. -/
def get_user_config_dir (env : Env) : Except String String :=
  match env.homeDir with
  | Option.none => Except.error "Could not determine user home directory!"
  | Option.some home =>
    if home = "" then Except.error "Could not determine user home directory!"
    else Except.ok (pjoin home ".config/")

/-- The two user-level sources applied from a resolved config home. -/
def user_sources (fs : FS) (config_home : String) (st : LoadState) : LoadState :=
  let st := maybe_load_file fs st (pjoin config_home "syngestures.toml")
  try_load_config_dir fs st (pjoin config_home "syngestures.d")

/-- `fn load_user_config`: resolve the config home from `XDG_CONFIG_HOME` or
the home directory; on failure print the diagnostic and skip both user-level
sources. -/
def load_user_config (fs : FS) (env : Env) (st : LoadState) : LoadState :=
  match env.xdgConfigHome with
  | XdgVar.ok xdg_config_home => user_sources fs xdg_config_home st
  | XdgVar.notPresent =>
    (match get_user_config_dir env with
     | Except.ok dir => user_sources fs dir st
     | Except.error e => (st.1, st.2 ++ [e]))
  | XdgVar.notUnicode => (st.1, st.2 ++ ["Invalid XDG_CONFIG_HOME"])

/-- The consolidated `No configuration found!` diagnostic of `load`,
printed exactly as the code prints it (note: the first two path lines are
built from `global_config_dir`, not from the prefix). -/
def no_config_diagnostic (global_config_dir : String) : List String :=
  ["No configuration found!",
   "Searched for configuration files in the following locations:",
   "* " ++ global_config_dir ++ "/etc/syngestures.toml",
   "* " ++ global_config_dir ++ "/etc/syngestures.d/*.toml",
   "* $XDG_HOME/syngestures.toml",
   "* $XDG_HOME/syngestures.d/*.toml",
   "* $HOME/.config/syngestures.toml",
   "* $HOME/.config/syngestures.d/*.toml"]

/-- `pub(crate) fn load() -> Configuration`, with the compile-time `PREFIX`
(`option_env!("PREFIX")`) passed explicitly. Returns the store and the full
diagnostic log. -/
def load (fs : FS) (env : Env) (prefixOpt : Option String) : LoadState :=
  let pfx := prefixOpt.getD "/usr/local"
  let st : LoadState := (Configuration.new, [])
  let global_config := pjoin pfx "etc/syngestures.toml"
  let st := maybe_load_file fs st global_config
  let global_config_dir := pjoin pfx "etc/syngestures.d"
  let st := try_load_config_dir fs st global_config_dir
  let st := load_user_config fs env st
  if st.1.devices.isEmpty then (st.1, st.2 ++ no_config_diagnostic global_config_dir)
  else st

/-! ### Derived lookup functions used to state the properties -/

/-- First-some choice on options; `oor a b` is `a` unless `a` is `none`.
Used to state how later bindings shadow earlier ones. -/
def oor {β : Type} (a b : Option β) : Option β :=
  match a with
  | Option.some x => Option.some x
  | Option.none => b

/-- The effective action bound to `(d, g)` by the store. -/
def Configuration.get (c : Configuration) (d : Device) (g : Gesture) : Option Action :=
  match mfind? d c.devices with
  | Option.none => Option.none
  | Option.some gm => mfind? g gm

/-- The binding a list of gesture records produces on its own (last
occurrence wins, as in the insertion loop of `load_config_file`). -/
def recsFind (recs : List ConfigGestureAndAction) (g : Gesture) : Option Action :=
  mfind? g (recs.foldl (fun m ga => minsert ga.gesture ga.action m) [])

/-- The binding a parsed file produces on its own: the file applied to the
empty store. -/
def fileFind (f : ConfigFile) (d : Device) (g : Gesture) : Option Action :=
  (apply_config_file Configuration.new f).get d g

/-- Every `(device, gesture)` key named by a parsed file. -/
def fileKeys (f : ConfigFile) : List (Device × Gesture) :=
  f.devices.flatMap fun b => b.gestures.map fun r => (b.device, r.gesture)

/-! ### Concrete fixtures used to evaluate the theorems -/

/-- A concrete instance of the external gesture deserializer: a gesture is a
single `fingers` integer field; everything after it is left for the action. -/
def gpW : GestureDe := fun fields =>
  match fields with
  | ("fingers", TomlVal.vint n) :: rest => Except.ok (n.toNat, rest)
  | _ => Except.error "missing gesture fields"

/-- A document binding `(touchpad0, 3)` to `workspace-prev`. -/
def docA : TomlVal :=
  TomlVal.vtable [("devices", TomlVal.varr
    [TomlVal.vtable [("device", TomlVal.vstr "touchpad0"),
      ("gestures", TomlVal.varr
        [TomlVal.vtable [("fingers", TomlVal.vint 3),
          ("execute", TomlVal.vstr "workspace-prev")]])]])]

/-- A document binding `(touchpad0, 3)` to `workspace-next`. -/
def docB : TomlVal :=
  TomlVal.vtable [("devices", TomlVal.varr
    [TomlVal.vtable [("device", TomlVal.vstr "touchpad0"),
      ("gestures", TomlVal.varr
        [TomlVal.vtable [("fingers", TomlVal.vint 3),
          ("execute", TomlVal.vstr "workspace-next")]])]])]

/-- The parse of `docA`. -/
def fA : ConfigFile := ⟨[⟨"touchpad0", [⟨3, Action.execute "workspace-prev"⟩]⟩]⟩

/-- The parse of `docB`. -/
def fB : ConfigFile := ⟨[⟨"touchpad0", [⟨3, Action.execute "workspace-next"⟩]⟩]⟩

/-- A parsed file whose key set is disjoint from `fA`. -/
def fC : ConfigFile := ⟨[⟨"touchpad1", [⟨4, Action.execute "other"⟩]⟩]⟩

/-- A filesystem holding exactly the two files `/etc/a.toml` (`docA`) and
`/etc/b.toml` (`docB`). -/
def fsW : FS where
  pathExists := fun p => p == "/etc/a.toml" || p == "/etc/b.toml"
  isDir := fun _ => false
  readToml := fun p =>
    if p == "/etc/a.toml" then Except.ok docA
    else if p == "/etc/b.toml" then Except.ok docB
    else Except.error "No such file"
  readDir := fun _ => Except.error "Not a directory"
  gestureDe := gpW

/-- A filesystem with no paths at all. -/
def fsNone : FS where
  pathExists := fun _ => false
  isDir := fun _ => false
  readToml := fun _ => Except.error "No such file"
  readDir := fun _ => Except.error "Not a directory"
  gestureDe := gpW

/-- A subdirectory entry. -/
def entrySub : DirEntry := ⟨"/d/sub", Option.none, Except.ok true⟩

/-- An entry whose extension is not `toml`. -/
def entryTxt : DirEntry := ⟨"/d/b.txt", Option.some "txt", Except.ok false⟩

/-- A regular `.toml` entry. -/
def entryToml : DirEntry := ⟨"/d/a.toml", Option.some "toml", Except.ok false⟩

/-- An entry whose `file_type()` inspection fails. -/
def entryErr : DirEntry := ⟨"/d/c.toml", Option.some "toml", Except.error "permission denied"⟩

/-- The enumeration of the directory `/d`. -/
def itemsD : List (Except String DirEntry) :=
  [Except.ok entrySub, Except.ok entryTxt, Except.ok entryToml,
   Except.ok entryErr, Except.error "io error"]

/-- A filesystem holding exactly the directory `/d` with entries `itemsD`. -/
def fsDir : FS where
  pathExists := fun p => p == "/d"
  isDir := fun p => p == "/d"
  readToml := fun _ => Except.error "No such file"
  readDir := fun p => if p == "/d" then Except.ok itemsD else Except.error "Not a directory"
  gestureDe := gpW

/-! ### Lemmas about the `BTreeMap` model -/

@[simp] theorem oor_some {β : Type} (x : β) (b : Option β) :
    oor (Option.some x) b = Option.some x := rfl

@[simp] theorem oor_none {β : Type} (b : Option β) : oor Option.none b = b := rfl

@[simp] theorem oor_none_right {β : Type} (a : Option β) : oor a Option.none = a := by
  cases a <;> rfl

section MapLemmas

variable {α : Type} {β : Type} [LinearOrder α] [DecidableEq α]

theorem mfind?_minsert_self (k : α) (v : β) (m : List (α × β)) :
    mfind? k (minsert k v m) = Option.some v := by
  induction m with
  | nil => simp [minsert, mfind?]
  | cons p t ih =>
    obtain ⟨k', v'⟩ := p
    by_cases h1 : k < k'
    · simp [minsert, h1, mfind?]
    · by_cases h2 : k = k'
      · simp [minsert, h1, h2, mfind?]
      · simp [minsert, h1, h2, mfind?, ih]

theorem mfind?_minsert_ne {k' k : α} (h : k' ≠ k) (v : β) (m : List (α × β)) :
    mfind? k' (minsert k v m) = mfind? k' m := by
  induction m with
  | nil => simp [minsert, mfind?, h]
  | cons p t ih =>
    obtain ⟨k0, v0⟩ := p
    by_cases h1 : k < k0
    · simp [minsert, h1, mfind?, h]
    · by_cases h2 : k = k0
      · subst h2
        simp [minsert, h1, mfind?, h]
      · simp [minsert, h1, h2, mfind?, ih]

theorem mem_minsert {p : α × β} {k : α} {v : β} {m : List (α × β)}
    (h : p ∈ minsert k v m) : p = (k, v) ∨ p ∈ m := by
  induction m with
  | nil => simpa [minsert] using h
  | cons q t ih =>
    obtain ⟨k0, v0⟩ := q
    by_cases h1 : k < k0
    · simp only [minsert, if_pos h1, List.mem_cons] at h
      rcases h with h | h | h
      · exact Or.inl h
      · exact Or.inr (by simp [h])
      · exact Or.inr (List.mem_cons_of_mem _ h)
    · by_cases h2 : k = k0
      · simp only [minsert, if_neg h1, if_pos h2, List.mem_cons] at h
        rcases h with h | h
        · exact Or.inl h
        · exact Or.inr (List.mem_cons_of_mem _ h)
      · simp only [minsert, if_neg h1, if_neg h2, List.mem_cons] at h
        rcases h with h | h
        · exact Or.inr (by simp [h])
        · rcases ih h with h | h
          · exact Or.inl h
          · exact Or.inr (List.mem_cons_of_mem _ h)

theorem msorted_minsert (k : α) (v : β) {m : List (α × β)} (h : msorted m) :
    msorted (minsert k v m) := by
  induction m with
  | nil => simp [minsert, msorted]
  | cons p t ih =>
    obtain ⟨k0, v0⟩ := p
    rw [msorted, List.pairwise_cons] at h
    obtain ⟨hbound, htail⟩ := h
    by_cases h1 : k < k0
    · rw [msorted, minsert, if_pos h1, List.pairwise_cons]
      refine ⟨?_, ?_⟩
      · intro q hq
        rcases List.mem_cons.mp hq with h | h
        · simpa [h] using h1
        · exact h1.trans (hbound q h)
      · rw [List.pairwise_cons]
        exact ⟨hbound, htail⟩
    · by_cases h2 : k = k0
      · subst h2
        rw [msorted, minsert, if_neg h1, if_pos rfl, List.pairwise_cons]
        exact ⟨hbound, htail⟩
      · rw [msorted, minsert, if_neg h1, if_neg h2, List.pairwise_cons]
        refine ⟨?_, ih htail⟩
        intro q hq
        rcases mem_minsert hq with h | h
        · have : k0 < k := lt_of_le_of_ne (not_lt.mp h1) (Ne.symm h2)
          simpa [h] using this
        · exact hbound q h

omit [LinearOrder α] in
theorem mfind?_eq_none {k : α} {m : List (α × β)} (h : ∀ p ∈ m, k ≠ p.1) :
    mfind? k m = Option.none := by
  induction m with
  | nil => rfl
  | cons p t ih =>
    obtain ⟨k0, v0⟩ := p
    have hk : k ≠ k0 := h (k0, v0) (List.mem_cons_self _ _)
    simp only [mfind?, if_neg hk]
    exact ih fun q hq => h q (List.mem_cons_of_mem _ hq)

omit [LinearOrder α] in
theorem mfind?_some_mem {k : α} {v : β} {m : List (α × β)}
    (h : mfind? k m = Option.some v) : (k, v) ∈ m := by
  induction m with
  | nil => simp [mfind?] at h
  | cons p t ih =>
    obtain ⟨k0, v0⟩ := p
    by_cases hk : k = k0
    · subst hk
      simp only [mfind?, if_true, eq_self_iff_true] at h
      have hv : v0 = v := by simpa using h
      exact List.mem_cons.mpr (Or.inl (by rw [hv]))
    · simp only [mfind?, if_neg hk] at h
      exact List.mem_cons_of_mem _ (ih h)

theorem mext {m1 m2 : List (α × β)} (h1 : msorted m1) (h2 : msorted m2)
    (h : ∀ k, mfind? k m1 = mfind? k m2) : m1 = m2 := by
  induction m1 generalizing m2 with
  | nil =>
    cases m2 with
    | nil => rfl
    | cons p t =>
      obtain ⟨k, v⟩ := p
      have := h k
      simp [mfind?] at this
  | cons p t1 ih =>
    obtain ⟨k1, v1⟩ := p
    cases m2 with
    | nil =>
      have := h k1
      simp [mfind?] at this
    | cons q t2 =>
      obtain ⟨k2, v2⟩ := q
      rw [msorted, List.pairwise_cons] at h1 h2
      obtain ⟨hb1, ht1⟩ := h1
      obtain ⟨hb2, ht2⟩ := h2
      have hk : k1 = k2 := by
        by_contra hne
        have e1 := h k1
        simp only [mfind?, if_pos rfl, if_neg hne] at e1
        have e2 := h k2
        simp only [mfind?, if_pos rfl, if_neg (Ne.symm hne)] at e2
        have m1mem := mfind?_some_mem e1.symm
        have m2mem := mfind?_some_mem e2
        have lt1 : k2 < k1 := hb2 _ m1mem
        have lt2 : k1 < k2 := hb1 _ m2mem
        exact absurd (lt1.trans lt2) (lt_irrefl _)
      subst hk
      have hv : v1 = v2 := by
        have e1 := h k1
        simpa [mfind?] using e1
      subst hv
      have htl : t1 = t2 := by
        refine ih ht1 ht2 ?_
        intro k
        by_cases hk : k = k1
        · subst hk
          rw [mfind?_eq_none fun q hq => ne_of_lt (hb1 q hq),
            mfind?_eq_none fun q hq => ne_of_lt (hb2 q hq)]
        · have := h k
          simpa [mfind?, hk] using this
      rw [htl]

end MapLemmas

/-! ### Lemmas about applying parsed files to the store -/

@[simp] theorem Configuration.get_new (d : Device) (g : Gesture) :
    Configuration.new.get d g = Option.none := rfl

theorem foldl_insert_find (recs : List ConfigGestureAndAction) (gm : GestureMap)
    (g : Gesture) :
    mfind? g (recs.foldl (fun m ga => minsert ga.gesture ga.action m) gm)
      = oor (recsFind recs g) (mfind? g gm) := by
  induction recs generalizing gm with
  | nil => simp [recsFind, mfind?]
  | cons r rest ih =>
    rw [List.foldl_cons, ih]
    have hR : recsFind (r :: rest) g
        = oor (recsFind rest g) (mfind? g (minsert r.gesture r.action [])) := by
      simp only [recsFind, List.foldl_cons]
      exact ih (minsert r.gesture r.action [])
    rw [hR]
    cases hF : recsFind rest g with
    | some a => rfl
    | none =>
      simp only [oor_none]
      by_cases hg : g = r.gesture
      · subst hg
        rw [mfind?_minsert_self, mfind?_minsert_self]
        rfl
      · rw [mfind?_minsert_ne hg, mfind?_minsert_ne hg]
        rfl

theorem apply_device_config_get (c : Configuration) (dc : ConfigDeviceGestures)
    (d : Device) (g : Gesture) :
    (apply_device_config c dc).get d g =
      if d = dc.device then oor (recsFind dc.gestures g) (c.get d g) else c.get d g := by
  by_cases hd : d = dc.device
  · subst hd
    simp only [apply_device_config, Configuration.get, mfind?_minsert_self,
      eq_self_iff_true, if_true, foldl_insert_find]
    cases hm : mfind? dc.device c.devices with
    | none => simp [mfind?]
    | some gm => simp
  · simp only [apply_device_config, Configuration.get, if_neg hd]
    rw [mfind?_minsert_ne hd]

theorem foldl_blocks_get (bs : List ConfigDeviceGestures) (c : Configuration)
    (d : Device) (g : Gesture) :
    (bs.foldl apply_device_config c).get d g
      = oor ((bs.foldl apply_device_config Configuration.new).get d g) (c.get d g) := by
  induction bs generalizing c with
  | nil => simp
  | cons b bs ih =>
    have hR : (List.foldl apply_device_config Configuration.new (b :: bs)).get d g
        = oor ((List.foldl apply_device_config Configuration.new bs).get d g)
            ((apply_device_config Configuration.new b).get d g) := by
      rw [List.foldl_cons, ih]
    rw [List.foldl_cons, ih, hR]
    cases hF : (List.foldl apply_device_config Configuration.new bs).get d g with
    | some a => rfl
    | none =>
      simp only [oor_none]
      rw [apply_device_config_get, apply_device_config_get]
      by_cases hd : d = b.device
      · rw [if_pos hd, if_pos hd, Configuration.get_new, oor_none_right]
      · rw [if_neg hd, if_neg hd, Configuration.get_new, oor_none]

theorem apply_config_file_get (c : Configuration) (f : ConfigFile)
    (d : Device) (g : Gesture) :
    (apply_config_file c f).get d g = oor (fileFind f d g) (c.get d g) := by
  simp only [apply_config_file, fileFind]
  exact foldl_blocks_get f.devices c d g

/-! ### Well-formedness, domains and extensionality of the store -/

theorem msorted_foldl_insert (recs : List ConfigGestureAndAction) {gm : GestureMap}
    (h : msorted gm) :
    msorted (recs.foldl (fun m ga => minsert ga.gesture ga.action m) gm) := by
  induction recs generalizing gm with
  | nil => exact h
  | cons r rest ih => exact ih (msorted_minsert _ _ h)

theorem wf_apply_device_config {c : Configuration} (dc : ConfigDeviceGestures)
    (h : c.WF) : (apply_device_config c dc).WF := by
  obtain ⟨hs, hv⟩ := h
  constructor
  · exact msorted_minsert _ _ hs
  · intro p hp
    rcases mem_minsert hp with hpe | hpm
    · subst hpe
      refine msorted_foldl_insert _ ?_
      cases hm : mfind? dc.device c.devices with
      | none => simp [msorted]
      | some gm => exact hv _ (mfind?_some_mem hm)
    · exact hv p hpm

theorem wf_foldl_blocks (bs : List ConfigDeviceGestures) {c : Configuration}
    (h : c.WF) : (bs.foldl apply_device_config c).WF := by
  induction bs generalizing c with
  | nil => exact h
  | cons b bs ih => exact ih (wf_apply_device_config b h)

theorem wf_apply_config_file {c : Configuration} (f : ConfigFile)
    (h : c.WF) : (apply_config_file c f).WF :=
  wf_foldl_blocks f.devices h

theorem wf_new : Configuration.new.WF := by
  constructor
  · simp [Configuration.new, msorted]
  · intro p hp
    simp [Configuration.new] at hp

theorem foldl_blocks_dom (bs : List ConfigDeviceGestures) (c : Configuration)
    (d : Device) :
    (mfind? d (bs.foldl apply_device_config c).devices).isSome = true
      ↔ (∃ b ∈ bs, b.device = d) ∨ (mfind? d c.devices).isSome = true := by
  induction bs generalizing c with
  | nil => simp
  | cons b bs ih =>
    rw [List.foldl_cons, ih]
    have hadc : (mfind? d (apply_device_config c b).devices).isSome = true
        ↔ (b.device = d ∨ (mfind? d c.devices).isSome = true) := by
      simp only [apply_device_config]
      by_cases hd : d = b.device
      · subst hd
        rw [mfind?_minsert_self]
        simp
      · rw [mfind?_minsert_ne hd]
        have hne : b.device ≠ d := fun h => hd h.symm
        simp [hne]
    rw [hadc]
    simp only [List.mem_cons]
    constructor
    · rintro (⟨b', hb', hbd⟩ | hb | hx)
      · exact Or.inl ⟨b', Or.inr hb', hbd⟩
      · exact Or.inl ⟨b, Or.inl rfl, hb⟩
      · exact Or.inr hx
    · rintro (⟨b', hb' | hb', hbd⟩ | hx)
      · subst hb'
        exact Or.inr (Or.inl hbd)
      · exact Or.inl ⟨b', hb', hbd⟩
      · exact Or.inr (Or.inr hx)

theorem config_ext {c1 c2 : Configuration} (h1 : c1.WF) (h2 : c2.WF)
    (hdom : ∀ d, (mfind? d c1.devices).isSome = (mfind? d c2.devices).isSome)
    (hget : ∀ d g, c1.get d g = c2.get d g) : c1 = c2 := by
  obtain ⟨hs1, hv1⟩ := h1
  obtain ⟨hs2, hv2⟩ := h2
  obtain ⟨dev1⟩ := c1
  obtain ⟨dev2⟩ := c2
  congr 1
  refine mext hs1 hs2 ?_
  intro d
  cases hm1 : mfind? d dev1 with
  | none =>
    cases hm2 : mfind? d dev2 with
    | none => rfl
    | some gm2 =>
      have := hdom d
      rw [hm1, hm2] at this
      simp at this
  | some gm1 =>
    cases hm2 : mfind? d dev2 with
    | none =>
      have := hdom d
      rw [hm1, hm2] at this
      simp at this
    | some gm2 =>
      refine congrArg Option.some ?_
      refine mext (hv1 _ (mfind?_some_mem hm1)) (hv2 _ (mfind?_some_mem hm2)) ?_
      intro g
      have := hget d g
      simp only [Configuration.get] at this
      rw [hm1, hm2] at this
      exact this

/-! ### The key set contributed by a parsed file -/

theorem recsFind_eq_none {recs : List ConfigGestureAndAction} {g : Gesture}
    (h : ∀ r ∈ recs, r.gesture ≠ g) : recsFind recs g = Option.none := by
  induction recs with
  | nil => rfl
  | cons r rest ih =>
    have hR : recsFind (r :: rest) g
        = oor (recsFind rest g) (mfind? g (minsert r.gesture r.action [])) := by
      simp only [recsFind, List.foldl_cons]
      exact foldl_insert_find rest (minsert r.gesture r.action []) g
    rw [hR, ih fun r hr => h r (List.mem_cons_of_mem _ hr), oor_none]
    have hg : g ≠ r.gesture := fun e => h r (List.mem_cons_self _ _) e.symm
    rw [mfind?_minsert_ne hg]
    rfl

theorem foldl_blocks_get_of_no_key (bs : List ConfigDeviceGestures) {d : Device}
    {g : Gesture} (h : ∀ b ∈ bs, b.device = d → ∀ r ∈ b.gestures, r.gesture ≠ g)
    (c : Configuration) : (bs.foldl apply_device_config c).get d g = c.get d g := by
  induction bs generalizing c with
  | nil => rfl
  | cons b bs ih =>
    rw [List.foldl_cons, ih fun b' hb' => h b' (List.mem_cons_of_mem _ hb'),
      apply_device_config_get]
    by_cases hd : d = b.device
    · rw [if_pos hd,
        recsFind_eq_none (h b (List.mem_cons_self _ _) hd.symm), oor_none]
    · rw [if_neg hd]

theorem fileFind_eq_none {f : ConfigFile} {d : Device} {g : Gesture}
    (h : (d, g) ∉ fileKeys f) : fileFind f d g = Option.none := by
  have hcond : ∀ b ∈ f.devices, b.device = d → ∀ r ∈ b.gestures, r.gesture ≠ g := by
    intro b hb hbd r hr hrg
    exact h (by
      simp only [fileKeys, List.mem_flatMap, List.mem_map]
      exact ⟨b, hb, r, hr, by rw [hbd, hrg]⟩)
  have := foldl_blocks_get_of_no_key f.devices hcond Configuration.new
  simpa [fileFind, apply_config_file] using this

theorem fileFind_mem_fileKeys {f : ConfigFile} {d : Device} {g : Gesture} {a : Action}
    (h : fileFind f d g = Option.some a) : (d, g) ∈ fileKeys f := by
  by_contra hmem
  rw [fileFind_eq_none hmem] at h
  exact Option.noConfusion h

/-! ### The claims -/

/-- C1: for a `(device, gesture)` key defined by two sources applied at
different precedence levels, the final store maps the key to the action
supplied by the later-applied (higher-precedence) source, whatever the
store already holds from earlier sources and in whatever order they were
loaded: applying the higher source through `try_load_config_file` on top of
any state ends with the higher source's own resolved binding. -/
theorem higher_precedence_source_wins (fs : FS) (st : LoadState) (p1 p2 : String)
    (t1 t2 : TomlVal) (f1 f2 : ConfigFile) (d : Device) (g : Gesture) (a : Action)
    (hr1 : fs.readToml p1 = Except.ok t1)
    (hp1 : parseConfigFile fs.gestureDe t1 = Except.ok f1)
    (hr2 : fs.readToml p2 = Except.ok t2)
    (hp2 : parseConfigFile fs.gestureDe t2 = Except.ok f2)
    (hbind : fileFind f2 d g = Option.some a) :
    ((try_load_config_file fs (try_load_config_file fs st p1) p2).1).get d g
      = Option.some a := by
  have e1 : try_load_config_file fs st p1 = (apply_config_file st.1 f1, st.2) := by
    simp [try_load_config_file, load_config_file, hr1, hp1]
  have e2 : try_load_config_file fs (apply_config_file st.1 f1, st.2) p2
      = (apply_config_file (apply_config_file st.1 f1) f2, st.2) := by
    simp [try_load_config_file, load_config_file, hr2, hp2]
  rw [e1, e2]
  show (apply_config_file (apply_config_file st.1 f1) f2).get d g = Option.some a
  rw [apply_config_file_get, hbind]
  rfl

theorem higher_precedence_source_wins_witness :
    ((try_load_config_file fsW
        (try_load_config_file fsW (Configuration.new, []) "/etc/a.toml")
        "/etc/b.toml").1).get "touchpad0" 3
      = Option.some (Action.execute "workspace-next") :=
  higher_precedence_source_wins fsW (Configuration.new, []) "/etc/a.toml" "/etc/b.toml"
    docA docB fA fB "touchpad0" 3 (Action.execute "workspace-next")
    rfl rfl rfl rfl rfl

/-- C3: whenever `load_config_file` fails, for any reason, the
`try_load_config_file` wrapper leaves the store exactly as it was (the
failing file contributes nothing, earlier bindings are untouched) and
appends one diagnostic naming the path and the cause. -/
theorem failed_file_load_preserves_store (fs : FS) (st : LoadState) (path e : String)
    (h : load_config_file fs st.1 path = Except.error e) :
    try_load_config_file fs st path
      = (st.1, st.2 ++ ["Error loading configuration file at " ++ path ++ ": " ++ e]) := by
  simp [try_load_config_file, h]

theorem failed_file_load_preserves_store_witness :
    try_load_config_file fsW (Configuration.new, []) "/nope.toml"
      = (Configuration.new,
         ["Error loading configuration file at " ++ "/nope.toml" ++ ": " ++ "No such file"]) :=
  failed_file_load_preserves_store fsW (Configuration.new, []) "/nope.toml"
    "No such file" rfl

/-- C7: a search path that does not exist behaves as an empty source: the
guarded file load is skipped with no diagnostic and no entries, and
`try_load_config_dir` on a missing (or non-directory) path returns the
state unchanged with no diagnostic. -/
theorem missing_search_path_empty_source (fs : FS) (st : LoadState) (p dir : String)
    (hp : fs.pathExists p = false)
    (hdir : fs.pathExists dir = false ∨ fs.isDir dir = false) :
    maybe_load_file fs st p = st ∧ try_load_config_dir fs st dir = st := by
  constructor
  · simp [maybe_load_file, hp]
  · rcases hdir with h | h <;>
      simp [try_load_config_dir, load_config_dir, h]

theorem missing_search_path_empty_source_witness :
    maybe_load_file fsNone (Configuration.new, []) "/etc/syngestures.toml"
        = (Configuration.new, [])
    ∧ try_load_config_dir fsNone (Configuration.new, []) "/etc/syngestures.d"
        = (Configuration.new, []) :=
  missing_search_path_empty_source fsNone (Configuration.new, [])
    "/etc/syngestures.toml" "/etc/syngestures.d" rfl (Or.inl rfl)

/-- C10: with no `XDG_CONFIG_HOME` and a home directory that resolves to
the empty path, `get_user_config_dir` returns the
`Could not determine user home directory!` error, and `load_user_config`
behaves exactly as with an undeterminable home: both user-level sources are
skipped with that diagnostic instead of searching under `.config` relative
to an empty base. -/
theorem empty_home_treated_as_undeterminable (fs : FS) (st : LoadState) :
    get_user_config_dir ⟨XdgVar.notPresent, Option.some ""⟩
        = Except.error "Could not determine user home directory!"
    ∧ load_user_config fs ⟨XdgVar.notPresent, Option.some ""⟩ st
        = load_user_config fs ⟨XdgVar.notPresent, Option.none⟩ st
    ∧ load_user_config fs ⟨XdgVar.notPresent, Option.some ""⟩ st
        = (st.1, st.2 ++ ["Could not determine user home directory!"]) :=
  ⟨rfl, rfl, rfl⟩

/-- C2: a gesture record whose action field is entirely absent (the gesture
deserializer consumes every field of the record) resolves to the no-op
`Action.none`, both at the record level and for a whole document holding
such a record, with no error reported. -/
theorem absent_action_field_is_none (gp : GestureDe)
    (fields : List (String × TomlVal)) (g : Gesture) (dev : String)
    (h : gp fields = Except.ok (g, [])) :
    parseGestureRecord gp fields = Except.ok ⟨g, Action.none⟩
    ∧ parseConfigFile gp (TomlVal.vtable [("devices", TomlVal.varr
        [TomlVal.vtable [("device", TomlVal.vstr dev),
          ("gestures", TomlVal.varr [TomlVal.vtable fields])]])])
        = Except.ok ⟨[⟨dev, [⟨g, Action.none⟩]⟩]⟩ := by
  have h1 : parseGestureRecord gp fields = Except.ok ⟨g, Action.none⟩ := by
    simp [parseGestureRecord, h, deserializeActionFlat]
  refine ⟨h1, ?_⟩
  simp [parseConfigFile, tlookup, parseDeviceBlocks, parseDeviceBlock,
    parseGestureRecords, h1]

theorem absent_action_field_is_none_witness :
    parseGestureRecord gpW [("fingers", TomlVal.vint 3)]
        = Except.ok ⟨3, Action.none⟩
    ∧ parseConfigFile gpW (TomlVal.vtable [("devices", TomlVal.varr
        [TomlVal.vtable [("device", TomlVal.vstr "touchpad0"),
          ("gestures", TomlVal.varr
            [TomlVal.vtable [("fingers", TomlVal.vint 3)]])]])])
        = Except.ok ⟨[⟨"touchpad0", [⟨3, Action.none⟩]⟩]⟩ :=
  absent_action_field_is_none gpW [("fingers", TomlVal.vint 3)] 3 "touchpad0" rfl

/-- C9: the document schema accepts a top-level `devices` key holding the
collection of device blocks and, through the serde alias, the key `device`
with identical meaning; in both forms each device block carries a device
string and a collection of flattened gesture+action records (here one
record with the action absent and one with an `execute` action). -/
theorem config_schema_devices_alias (gp : GestureDe) (v : TomlVal)
    (dev cmd : String) (fields1 fields2 : List (String × TomlVal)) (g1 g2 : Gesture)
    (h1 : gp fields1 = Except.ok (g1, []))
    (h2 : gp fields2 = Except.ok (g2, [("execute", TomlVal.vstr cmd)])) :
    parseConfigFile gp (TomlVal.vtable [("device", v)])
        = parseConfigFile gp (TomlVal.vtable [("devices", v)])
    ∧ parseConfigFile gp (TomlVal.vtable [("devices", TomlVal.varr
        [TomlVal.vtable [("device", TomlVal.vstr dev),
          ("gestures", TomlVal.varr
            [TomlVal.vtable fields1, TomlVal.vtable fields2])]])])
        = Except.ok ⟨[⟨dev, [⟨g1, Action.none⟩, ⟨g2, Action.execute cmd⟩]⟩]⟩
    ∧ parseConfigFile gp (TomlVal.vtable [("device", TomlVal.varr
        [TomlVal.vtable [("device", TomlVal.vstr dev),
          ("gestures", TomlVal.varr
            [TomlVal.vtable fields1, TomlVal.vtable fields2])]])])
        = Except.ok ⟨[⟨dev, [⟨g1, Action.none⟩, ⟨g2, Action.execute cmd⟩]⟩]⟩ := by
  have hrec1 : parseGestureRecord gp fields1 = Except.ok ⟨g1, Action.none⟩ := by
    simp [parseGestureRecord, h1, deserializeActionFlat]
  have hrec2 : parseGestureRecord gp fields2 = Except.ok ⟨g2, Action.execute cmd⟩ := by
    simp [parseGestureRecord, h2, deserializeActionFlat]
  refine ⟨?_, ?_, ?_⟩
  · cases v <;> rfl
  · simp [parseConfigFile, tlookup, parseDeviceBlocks, parseDeviceBlock,
      parseGestureRecords, hrec1, hrec2]
  · simp [parseConfigFile, tlookup, parseDeviceBlocks, parseDeviceBlock,
      parseGestureRecords, hrec1, hrec2]

theorem config_schema_devices_alias_witness :
    parseConfigFile gpW (TomlVal.vtable [("device", TomlVal.varr [])])
        = parseConfigFile gpW (TomlVal.vtable [("devices", TomlVal.varr [])])
    ∧ parseConfigFile gpW (TomlVal.vtable [("devices", TomlVal.varr
        [TomlVal.vtable [("device", TomlVal.vstr "touchpad0"),
          ("gestures", TomlVal.varr
            [TomlVal.vtable [("fingers", TomlVal.vint 3)],
             TomlVal.vtable [("fingers", TomlVal.vint 4),
               ("execute", TomlVal.vstr "cmd")]])]])])
        = Except.ok ⟨[⟨"touchpad0", [⟨3, Action.none⟩, ⟨4, Action.execute "cmd"⟩]⟩]⟩
    ∧ parseConfigFile gpW (TomlVal.vtable [("device", TomlVal.varr
        [TomlVal.vtable [("device", TomlVal.vstr "touchpad0"),
          ("gestures", TomlVal.varr
            [TomlVal.vtable [("fingers", TomlVal.vint 3)],
             TomlVal.vtable [("fingers", TomlVal.vint 4),
               ("execute", TomlVal.vstr "cmd")]])]])])
        = Except.ok ⟨[⟨"touchpad0", [⟨3, Action.none⟩, ⟨4, Action.execute "cmd"⟩]⟩]⟩ :=
  config_schema_devices_alias gpW (TomlVal.varr []) "touchpad0" "cmd"
    [("fingers", TomlVal.vint 3)] [("fingers", TomlVal.vint 4), ("execute", TomlVal.vstr "cmd")]
    3 4 rfl rfl

/-- C5: evaluating `load` in an environment with no configuration at all:
the store is empty, the consolidated `No configuration found!` diagnostic
is emitted, and the two system-path lines of that diagnostic are built from
`global_config_dir` (`<prefix>/etc/syngestures.d`) instead of the prefix, so
the diagnostic names `/usr/local/etc/syngestures.d/etc/syngestures.toml`
rather than the actually searched `/usr/local/etc/syngestures.toml`. -/
theorem no_config_diagnostic_misprints_system_paths :
    load fsNone ⟨XdgVar.notPresent, Option.some "/home/user"⟩ Option.none
        = (Configuration.new, no_config_diagnostic "/usr/local/etc/syngestures.d")
    ∧ "* /usr/local/etc/syngestures.d/etc/syngestures.toml"
        ∈ (load fsNone ⟨XdgVar.notPresent, Option.some "/home/user"⟩ Option.none).2
    ∧ "* /usr/local/etc/syngestures.toml"
        ∉ (load fsNone ⟨XdgVar.notPresent, Option.some "/home/user"⟩ Option.none).2 :=
  ⟨rfl, by decide, by decide⟩

/-- C6: the user config home is the value of `XDG_CONFIG_HOME` when that
variable holds valid text; otherwise `<home>/.config/` when the home
directory is determinable; when the variable is set but not unicode, or
absent with no determinable home, both user-level sources are skipped with
one diagnostic while the store (holding whatever the system-level sources
already contributed) is left untouched. -/
theorem user_config_home_resolution (fs : FS) (env : Env) (st : LoadState) :
    (∀ v, env.xdgConfigHome = XdgVar.ok v →
        load_user_config fs env st = user_sources fs v st)
    ∧ (∀ home, env.xdgConfigHome = XdgVar.notPresent →
        env.homeDir = Option.some home → home ≠ "" →
        load_user_config fs env st = user_sources fs (pjoin home ".config/") st)
    ∧ (env.xdgConfigHome = XdgVar.notUnicode →
        load_user_config fs env st = (st.1, st.2 ++ ["Invalid XDG_CONFIG_HOME"]))
    ∧ (env.xdgConfigHome = XdgVar.notPresent → env.homeDir = Option.none →
        load_user_config fs env st
          = (st.1, st.2 ++ ["Could not determine user home directory!"])) := by
  obtain ⟨x, hd⟩ := env
  refine ⟨?_, ?_, ?_, ?_⟩
  · intro v hv
    simp only at hv
    subst hv
    rfl
  · intro home hx hh hne
    simp only at hx hh
    subst hx
    subst hh
    simp [load_user_config, get_user_config_dir, hne]
  · intro hx
    simp only at hx
    subst hx
    rfl
  · intro hx hh
    simp only at hx hh
    subst hx
    subst hh
    rfl

theorem user_config_home_resolution_witness :
    (load_user_config fsNone ⟨XdgVar.ok "/xdg", Option.none⟩ (Configuration.new, [])
        = user_sources fsNone "/xdg" (Configuration.new, []))
    ∧ (load_user_config fsNone ⟨XdgVar.notPresent, Option.some "/home/user"⟩
          (Configuration.new, [])
        = user_sources fsNone (pjoin "/home/user" ".config/") (Configuration.new, []))
    ∧ (load_user_config fsNone ⟨XdgVar.notUnicode, Option.none⟩ (Configuration.new, [])
        = (Configuration.new, ["Invalid XDG_CONFIG_HOME"]))
    ∧ (load_user_config fsNone ⟨XdgVar.notPresent, Option.none⟩ (Configuration.new, [])
        = (Configuration.new, ["Could not determine user home directory!"])) :=
  ⟨(user_config_home_resolution fsNone ⟨XdgVar.ok "/xdg", Option.none⟩
      (Configuration.new, [])).1 "/xdg" rfl,
   (user_config_home_resolution fsNone ⟨XdgVar.notPresent, Option.some "/home/user"⟩
      (Configuration.new, [])).2.1 "/home/user" rfl rfl (by decide),
   (user_config_home_resolution fsNone ⟨XdgVar.notUnicode, Option.none⟩
      (Configuration.new, [])).2.2.1 rfl,
   (user_config_home_resolution fsNone ⟨XdgVar.notPresent, Option.none⟩
      (Configuration.new, [])).2.2.2 rfl rfl⟩

/-- C8: scanning an existing directory folds over its enumeration
non-recursively, and each entry is handled independently: subdirectory
entries are skipped, entries whose extension is not exactly `toml` are
skipped, every remaining entry is handed to `try_load_config_file`, a
failure to inspect an entry is reported with that entry's path, and a
failed enumeration item is reported with the directory — in every failure
case the fold continues with the remaining entries. -/
theorem directory_scan_behavior (fs : FS) (st : LoadState) (dir : String)
    (items : List (Except String DirEntry))
    (hex : fs.pathExists dir = true) (hd : fs.isDir dir = true)
    (hrd : fs.readDir dir = Except.ok items) :
    load_config_dir fs st dir = Except.ok (items.foldl (scan_step fs dir) st)
    ∧ (∀ st' ent, ent.fileType = Except.ok true →
        scan_step fs dir st' (Except.ok ent) = st')
    ∧ (∀ st' ent, ent.fileType = Except.ok false → ent.ext ≠ Option.some "toml" →
        scan_step fs dir st' (Except.ok ent) = st')
    ∧ (∀ st' ent, ent.fileType = Except.ok false → ent.ext = Option.some "toml" →
        scan_step fs dir st' (Except.ok ent) = try_load_config_file fs st' ent.path)
    ∧ (∀ st' ent e, ent.fileType = Except.error e →
        scan_step fs dir st' (Except.ok ent)
          = (st'.1, st'.2 ++ ["Error loading " ++ ent.path ++ ": " ++ e]))
    ∧ (∀ st' e, scan_step fs dir st' (Except.error e)
          = (st'.1, st'.2
              ++ ["Error reading file from configuration directory " ++ dir ++ ": " ++ e])) := by
  refine ⟨?_, ?_, ?_, ?_, ?_, ?_⟩
  · simp [load_config_dir, hex, hd, hrd]
  · intro st' ent h
    simp [scan_step, h]
  · intro st' ent h hext
    simp [scan_step, h, hext]
  · intro st' ent h hext
    simp [scan_step, h, hext]
  · intro st' ent e h
    simp [scan_step, h]
  · intro st' e
    rfl

theorem directory_scan_behavior_witness :
    (load_config_dir fsDir (Configuration.new, []) "/d"
        = Except.ok (itemsD.foldl (scan_step fsDir "/d") (Configuration.new, []))
    ∧ (∀ st' ent, ent.fileType = Except.ok true →
        scan_step fsDir "/d" st' (Except.ok ent) = st')
    ∧ (∀ st' ent, ent.fileType = Except.ok false → ent.ext ≠ Option.some "toml" →
        scan_step fsDir "/d" st' (Except.ok ent) = st')
    ∧ (∀ st' ent, ent.fileType = Except.ok false → ent.ext = Option.some "toml" →
        scan_step fsDir "/d" st' (Except.ok ent) = try_load_config_file fsDir st' ent.path)
    ∧ (∀ st' ent e, ent.fileType = Except.error e →
        scan_step fsDir "/d" st' (Except.ok ent)
          = (st'.1, st'.2 ++ ["Error loading " ++ ent.path ++ ": " ++ e]))
    ∧ (∀ st' e, scan_step fsDir "/d" st' (Except.error e)
          = (st'.1, st'.2
              ++ ["Error reading file from configuration directory " ++ "/d" ++ ": " ++ e]))) :=
  directory_scan_behavior fsDir (Configuration.new, []) "/d" itemsD rfl rfl rfl

/-- C4: two parsed sources whose `(device, gesture)` key sets are disjoint
commute: applied to any well-formed store in either order they produce the
same final store, and each key reads as the union of the two sources'
bindings over what the store already held. -/
theorem disjoint_sources_load_order_independent (c : Configuration)
    (f1 f2 : ConfigFile) (hwf : c.WF)
    (hdisj : ∀ p ∈ fileKeys f1, p ∉ fileKeys f2) :
    apply_config_file (apply_config_file c f1) f2
      = apply_config_file (apply_config_file c f2) f1
    ∧ ∀ d g, (apply_config_file (apply_config_file c f1) f2).get d g
        = oor (fileFind f1 d g) (oor (fileFind f2 d g) (c.get d g)) := by
  have hswap : ∀ d g x, oor (fileFind f2 d g) (oor (fileFind f1 d g) x)
      = oor (fileFind f1 d g) (oor (fileFind f2 d g) x) := by
    intro d g x
    cases h1 : fileFind f1 d g with
    | none => simp
    | some a1 =>
      cases h2 : fileFind f2 d g with
      | none => simp
      | some a2 =>
        exact absurd (fileFind_mem_fileKeys h2)
          (hdisj _ (fileFind_mem_fileKeys h1))
  have hget1 : ∀ d g, (apply_config_file (apply_config_file c f1) f2).get d g
      = oor (fileFind f2 d g) (oor (fileFind f1 d g) (c.get d g)) := by
    intro d g
    rw [apply_config_file_get, apply_config_file_get]
  have hget2 : ∀ d g, (apply_config_file (apply_config_file c f2) f1).get d g
      = oor (fileFind f1 d g) (oor (fileFind f2 d g) (c.get d g)) := by
    intro d g
    rw [apply_config_file_get, apply_config_file_get]
  refine ⟨?_, fun d g => (hget1 d g).trans (hswap d g _)⟩
  refine config_ext (wf_apply_config_file f2 (wf_apply_config_file f1 hwf))
    (wf_apply_config_file f1 (wf_apply_config_file f2 hwf)) ?_ ?_
  · intro d
    have hs1 : (mfind? d (apply_config_file (apply_config_file c f1) f2).devices).isSome
        = true ↔ ((∃ b ∈ f2.devices, b.device = d)
          ∨ ((∃ b ∈ f1.devices, b.device = d)
            ∨ (mfind? d c.devices).isSome = true)) := by
      refine (foldl_blocks_dom f2.devices (apply_config_file c f1) d).trans ?_
      exact or_congr_right (foldl_blocks_dom f1.devices c d)
    have hs2 : (mfind? d (apply_config_file (apply_config_file c f2) f1).devices).isSome
        = true ↔ ((∃ b ∈ f1.devices, b.device = d)
          ∨ ((∃ b ∈ f2.devices, b.device = d)
            ∨ (mfind? d c.devices).isSome = true)) := by
      refine (foldl_blocks_dom f1.devices (apply_config_file c f2) d).trans ?_
      exact or_congr_right (foldl_blocks_dom f2.devices c d)
    have hiff : (mfind? d (apply_config_file (apply_config_file c f1) f2).devices).isSome
        = true ↔
        (mfind? d (apply_config_file (apply_config_file c f2) f1).devices).isSome
        = true := by
      rw [hs1, hs2]
      exact or_left_comm
    revert hiff
    cases (mfind? d (apply_config_file (apply_config_file c f1) f2).devices).isSome <;>
      cases (mfind? d (apply_config_file (apply_config_file c f2) f1).devices).isSome <;>
      simp
  · intro d g
    rw [hget1 d g, hget2 d g]
    exact hswap d g _

theorem disjoint_sources_load_order_independent_witness :
    (apply_config_file (apply_config_file Configuration.new fA) fC
        = apply_config_file (apply_config_file Configuration.new fC) fA)
    ∧ ∀ d g, (apply_config_file (apply_config_file Configuration.new fA) fC).get d g
        = oor (fileFind fA d g) (oor (fileFind fC d g) (Configuration.new.get d g)) :=
  disjoint_sources_load_order_independent Configuration.new fA fC wf_new (by decide)

end Syngesture
